import Mathlib

/-!
Shallow embedding of the subscription-ledger core of `mikecal-submanager`
(`src/main.js` and the concatenated variants in `src/unnamed/part_000`),
together with theorems settling the spec claims.

Conventions of the embedding:
* JS calendar dates (year, 0-based month, day-of-month triples as handled
  by `Date`) are embedded as `CivilDate` with 1-based months, so the JS
  test `month === 11` (December) reads `month = 12` here.
* JS timestamps (`new Date()`, millisecond instants) are embedded as
  `JsInstant`: a day number (the proleptic-Gregorian day index that the
  JS engine computes for the civil date, here `daysFromCivil`) plus the
  milliseconds elapsed since that day's UTC midnight.
* JS strings are Lean `String`s; `padStart`/`padEnd`/`substring` are
  re-implemented on the character list (all data involved is ASCII, where
  JS code units and characters agree).
* The in-memory store `subscriptionsStore` (a JS object keyed by customer
  email, insertion-ordered) is a `List (String × SubRecord)`; the durable
  file written by `saveSubscriptions` is a second copy of that mapping in
  `LedgerState.disk`, updated exactly where the source calls
  `saveSubscriptions()`.
-/

set_option autoImplicit false

namespace Mikecal

/-! ### Calendar dates and date-fns arithmetic -/

/-- A civil (calendar) date; `month` is 1-based (JS `getMonth() + 1`). -/
structure CivilDate where
  year : Nat
  month : Nat
  day : Nat
  deriving DecidableEq, Repr

/-- Gregorian leap-year test, as used by the JS date engine. -/
def isLeapYear (y : Nat) : Bool :=
  (y % 4 == 0 && y % 100 != 0) || y % 400 == 0

/-- Number of days in month `m` (1-based) of year `y`. -/
def daysInMonth (y m : Nat) : Nat :=
  if m == 2 then (if isLeapYear y then 29 else 28)
  else if m == 4 || m == 6 || m == 9 || m == 11 then 30
  else 31

/-- `date-fns` `addMonths`: advance the date by `n` calendar months,
keeping the day-of-month and clamping it to the last valid day of the
target month. -/
def addMonths (dt : CivilDate) (n : Nat) : CivilDate :=
  let tm := dt.year * 12 + (dt.month - 1) + n
  let y := tm / 12
  let m := tm % 12 + 1
  { year := y, month := m, day := min dt.day (daysInMonth y m) }

/-- `date-fns` `addYears`: advance the date by `n` calendar years,
clamping Feb 29 to Feb 28 in a non-leap target year. -/
def addYears (dt : CivilDate) (n : Nat) : CivilDate :=
  let y := dt.year + n
  { year := y, month := dt.month, day := min dt.day (daysInMonth y dt.month) }

/-- `computeNextDueDate` (src/main.js lines 61-69).  The source receives
`lastPaymentDate` as an ISO string and applies `parseISO`; the embedding
takes the calendar date that string carries. -/
def computeNextDueDate (lastPaymentDate : CivilDate) (subscriptionPlan : String) : CivilDate :=
  if subscriptionPlan = "Monthly" then addMonths lastPaymentDate 1
  else if subscriptionPlan = "Annual" then addYears lastPaymentDate 1
  else lastPaymentDate

/-- `toCareingtonEffectiveDate` (src/main.js lines 558-565).  The JS code
works with the 0-based `getMonth()` value, so its `month === 11` test for
December is `dt.month = 12` here and `new Date(year, month + 1, 1)` is
the first day of month `dt.month + 1`. -/
def toCareingtonEffectiveDate (dt : CivilDate) : CivilDate :=
  if dt.day ≤ 15 then { year := dt.year, month := dt.month, day := 1 }
  else if dt.month = 12 then { year := dt.year + 1, month := 1, day := 1 }
  else { year := dt.year, month := dt.month + 1, day := 1 }

/-! ### Member records and the activity evaluator -/

/-- The normalized subscription record built by `updateSubscriptionRecord`
(src/unnamed/part_000 lines 601-611); all fields are strings, dates in
`YYYYMMDD` form. -/
structure SubRecord where
  customerEmail : String
  lastPaymentDate : String
  paymentAmount : String
  subscriptionPlan : String
  nextDueDate : String
  orderId : String
  firstName : String
  lastName : String
  productName : String
  deriving DecidableEq, Repr

/-- Milliseconds in a day, the unit scale of JS timestamps. -/
def msPerDay : Nat := 86400000

/-- A JS instant (`new Date()` / a millisecond timestamp): the
proleptic-Gregorian day number of its UTC civil date plus the
milliseconds elapsed since that day's UTC midnight. -/
structure JsInstant where
  dayNumber : Int
  msOfDay : Nat
  deriving DecidableEq, Repr

/-- The millisecond timestamp of an instant. -/
def JsInstant.toMillis (t : JsInstant) : Int :=
  t.dayNumber * msPerDay + t.msOfDay

/-- Day number of a civil date (days since 1970-01-01), the conversion a
JS engine performs when it turns `"YYYY-MM-DD"` into a UTC-midnight
timestamp (standard civil-from-days algorithm). -/
def daysFromCivil (y m d : Nat) : Int :=
  let yAdj : Int := if m ≤ 2 then (y : Int) - 1 else (y : Int)
  let era : Int := (if 0 ≤ yAdj then yAdj else yAdj - 399) / 400
  let yoe : Int := yAdj - era * 400
  let mp : Int := ((m : Int) + 9) % 12
  let doy : Int := (153 * mp + 2) / 5 + (d : Int) - 1
  let doe : Int := yoe * 365 + yoe / 4 - yoe / 100 + doy
  era * 146097 + doe - 719468

/-- JS `String.prototype.substring(a, b)` on ASCII strings. -/
def jsSubstring (s : String) (a b : Nat) : String :=
  String.mk ((s.data.drop a).take (b - a))

/-- Decimal value of a digit run. -/
def decimalValue (l : List Char) : Nat :=
  l.foldl (fun n c => n * 10 + (c.toNat - 48)) 0

/-- Numeric value of one date component sliced out of the stamp, as the
JS engine reads the pieces of a `"YYYY-MM-DD"` string (a slice that is
not a non-empty digit run makes the whole `Date` invalid; normalized
records never contain one, see the date-shape invariant). -/
def parseDigits (s : String) : Nat :=
  if !s.data.isEmpty && s.data.all (fun c => c.isDigit) then decimalValue s.data
  else 0

/-- `isActiveSubscription` (src/main.js lines 75-82): slices the stored
`YYYYMMDD` next-due date into its components (the source reassembles them
as `"YYYY-MM-DD"` and hands that to `new Date`, which parses the same
three components back out and maps them to the UTC midnight of that civil
date) and tests whether `now` is strictly before that midnight. -/
def isActiveSubscription (r : SubRecord) (now : JsInstant) : Bool :=
  let nd := r.nextDueDate
  let y := parseDigits (jsSubstring nd 0 4)
  let m := parseDigits (jsSubstring nd 4 6)
  let d := parseDigits (jsSubstring nd 6 8)
  now.toMillis < daysFromCivil y m d * msPerDay

/-- The day number encoded by a record's `nextDueDate` field. -/
def nextDueDayNumber (r : SubRecord) : Int :=
  daysFromCivil (parseDigits (jsSubstring r.nextDueDate 0 4))
    (parseDigits (jsSubstring r.nextDueDate 4 6))
    (parseDigits (jsSubstring r.nextDueDate 6 8))

/-! ### Decimal rendering and padding (JS `padStart`/`padEnd`, date-fns `format`) -/

/-- Decimal digit characters of a natural number, most significant first. -/
def natChars (n : Nat) : List Char :=
  if h : n < 10 then [Char.ofNat (48 + n)]
  else natChars (n / 10) ++ [Char.ofNat (48 + n % 10)]
decreasing_by exact Nat.div_lt_self (by omega) (by omega)

/-- Left-pad a character list with `c` up to width `w` (no truncation). -/
def leftPad (w : Nat) (c : Char) (l : List Char) : List Char :=
  List.replicate (w - l.length) c ++ l

/-- A number rendered zero-padded to width `w`, as date-fns format tokens
`yyyy` / `MM` / `dd` do. -/
def zeroPad (w n : Nat) : List Char := leftPad w '0' (natChars n)

/-- date-fns `format(date, 'yyyyMMdd')`. -/
def formatYYYYMMDD (dt : CivilDate) : String :=
  String.mk (zeroPad 4 dt.year ++ zeroPad 2 dt.month ++ zeroPad 2 dt.day)

/-- JS `String.prototype.padEnd(w, c)` (pads, never truncates). -/
def padEnd (s : String) (w : Nat) (c : Char) : String :=
  String.mk (s.data ++ List.replicate (w - s.data.length) c)

/-- JS `String.prototype.padStart(w, c)` (pads, never truncates). -/
def padStart (s : String) (w : Nat) (c : Char) : String :=
  String.mk (List.replicate (w - s.data.length) c ++ s.data)

/-- The `YYYYMMDD` shape invariant: exactly eight decimal digits. -/
def isYYYYMMDD (s : String) : Bool :=
  s.length == 8 && s.data.all (fun c => c.isDigit)

/-! ### Orders, the ledger state and the store operations -/

/-- A Squarespace money amount (`unitPricePaid`). -/
structure Money where
  value : String
  deriving DecidableEq, Repr

/-- A sales line item of an order. -/
structure LineItem where
  lineItemType : String
  unitPricePaid : Money
  productName : String
  deriving DecidableEq, Repr

/-- The billing address block of an order; fields the source reads with a
`|| ''` fallback are optional here. -/
structure BillingAddress where
  firstName : Option String
  lastName : Option String
  deriving DecidableEq, Repr

/-- The order document returned by the order-lookup collaborator, with
timestamps embedded as the civil dates they carry. -/
structure OrderDetails where
  id : String
  customerEmail : String
  salesLineItems : Option (List LineItem)
  lineItems : Option (List LineItem)
  fulfilledOn : Option CivilDate
  createdOn : CivilDate
  billingAddress : Option BillingAddress
  deriving DecidableEq, Repr

/-- `orderDetails.salesLineItems || orderDetails.lineItems`. -/
def orderItems (o : OrderDetails) : Option (List LineItem) :=
  o.salesLineItems.orElse (fun _ => o.lineItems)

/-- `items.find(item => item.lineItemType === "PAYWALL_PRODUCT")`. -/
def findSubscriptionItem (items : List LineItem) : Option LineItem :=
  items.find? (fun it => it.lineItemType == "PAYWALL_PRODUCT")

/-- The exact-match price table (src/unnamed/part_000 lines 574-582):
`"19.99"` is Monthly, `"159.00"` is Annual, anything else is unrecognized. -/
def recognizedPlan (paymentAmount : String) : Option String :=
  if paymentAmount = "19.99" then some "Monthly"
  else if paymentAmount = "159.00" then some "Annual"
  else none

/-- `orderDetails.fulfilledOn || orderDetails.createdOn`. -/
def paymentDateOf (o : OrderDetails) : CivilDate :=
  o.fulfilledOn.getD o.createdOn

/-- The in-memory store (`subscriptionsStore`, keyed by customer email,
insertion-ordered) together with the durable copy written by
`saveSubscriptions`. -/
structure LedgerState where
  store : List (String × SubRecord)
  disk : List (String × SubRecord)
  deriving DecidableEq, Repr

/-- Whether the JS object has the key (`subscriptionsStore[email]`
truthiness test on a record value). -/
def storeHasKey (s : List (String × SubRecord)) (k : String) : Bool :=
  s.any (fun p => p.1 == k)

/-- `subscriptionsStore[email] = record`: replace the entry in place if
the key exists (JS objects keep a rewritten key at its position),
otherwise append it. -/
def storeSet (s : List (String × SubRecord)) (k : String) (v : SubRecord) :
    List (String × SubRecord) :=
  if storeHasKey s k then s.map (fun p => if p.1 == k then (k, v) else p)
  else s ++ [(k, v)]

/-- `subscriptionsStore[email]` as a lookup. -/
def storeGet (s : List (String × SubRecord)) (k : String) : Option SubRecord :=
  (s.find? (fun p => p.1 == k)).map Prod.snd

/-- Number of entries stored under a key. -/
def storeCount (s : List (String × SubRecord)) (k : String) : Nat :=
  (s.filter (fun p => p.1 == k)).length

/-- `updateSubscriptionRecord` (src/unnamed/part_000 lines 555-615):
normalize the order into a `SubRecord` and upsert it, persisting via
`saveSubscriptions`; on a missing/empty item list, a missing
`PAYWALL_PRODUCT` item or an unrecognized payment amount it returns
without touching the store or the disk. -/
def updateSubscriptionRecord (o : OrderDetails) (st : LedgerState) : LedgerState :=
  let email := o.customerEmail
  match orderItems o with
  | none => st
  | some items =>
    if items.length = 0 then st
    else
      match findSubscriptionItem items with
      | none => st
      | some subscriptionItem =>
        let paymentAmount := subscriptionItem.unitPricePaid.value
        match recognizedPlan paymentAmount with
        | none => st
        | some subscriptionPlan =>
          let paymentDate := paymentDateOf o
          let lastPaymentDate := formatYYYYMMDD paymentDate
          let nextDueDate := formatYYYYMMDD (computeNextDueDate paymentDate subscriptionPlan)
          let billing := o.billingAddress
          let firstName := (billing.bind (fun b => b.firstName)).getD ""
          let lastName := (billing.bind (fun b => b.lastName)).getD ""
          let r : SubRecord := {
            customerEmail := email
            lastPaymentDate := lastPaymentDate
            paymentAmount := paymentAmount
            subscriptionPlan := subscriptionPlan
            nextDueDate := nextDueDate
            orderId := o.id
            firstName := firstName
            lastName := lastName
            productName := subscriptionItem.productName }
          let store' := storeSet st.store email r
          { store := store', disk := store' }

/-- The record `updateSubscriptionRecord` builds for an order once a plan
has been recognized for the given line item. -/
def normalizedRecord (o : OrderDetails) (subscriptionItem : LineItem)
    (subscriptionPlan : String) : SubRecord :=
  { customerEmail := o.customerEmail
    lastPaymentDate := formatYYYYMMDD (paymentDateOf o)
    paymentAmount := subscriptionItem.unitPricePaid.value
    subscriptionPlan := subscriptionPlan
    nextDueDate := formatYYYYMMDD (computeNextDueDate (paymentDateOf o) subscriptionPlan)
    orderId := o.id
    firstName := (o.billingAddress.bind (fun b => b.firstName)).getD ""
    lastName := (o.billingAddress.bind (fun b => b.lastName)).getD ""
    productName := subscriptionItem.productName }

/-- `removeSubscriptionRecord` (src/main.js lines 151-158): delete the
entry keyed by the customer email and persist, or do nothing at all when
the key is absent. -/
def removeSubscriptionRecord (o : OrderDetails) (st : LedgerState) : LedgerState :=
  if storeHasKey st.store o.customerEmail then
    let store' := st.store.filter (fun p => !(p.1 == o.customerEmail))
    { store := store', disk := store' }
  else st

/-! ### The fixed-width (SDF) encoder -/

/-- One fixed-width line (src/main.js lines 195-204): email 50, plan 10,
last-payment date (stored 8-char stamp, unpadded), next-due date
(likewise), amount right-justified in 8, first name 20, last name 20,
order id 24. -/
def buildSdfLine (record : SubRecord) : String :=
  padEnd record.customerEmail 50 ' ' ++ padEnd record.subscriptionPlan 10 ' ' ++
  record.lastPaymentDate ++ record.nextDueDate ++
  padStart record.paymentAmount 8 ' ' ++
  padEnd record.firstName 20 ' ' ++ padEnd record.lastName 20 ' ' ++
  padEnd record.orderId 24 ' '

/-- Every field of a record fits its fixed-width column, with the two
date stamps filling theirs exactly (they are emitted unpadded). -/
def sdfWellFormed (r : SubRecord) : Prop :=
  r.customerEmail.length ≤ 50 ∧ r.subscriptionPlan.length ≤ 10 ∧
  r.lastPaymentDate.length = 8 ∧ r.nextDueDate.length = 8 ∧
  r.paymentAmount.length ≤ 8 ∧ r.firstName.length ≤ 20 ∧
  r.lastName.length ≤ 20 ∧ r.orderId.length ≤ 24

/-- `generateSubscriptionSDF` (src/main.js lines 189-216): walk the
store's values in order and push a fixed-width line for each record the
activity evaluator accepts (file naming and the filesystem write are out
of scope; the function is modelled as the list of emitted lines). -/
def generateSubscriptionSDF (subscriptions : List (String × SubRecord))
    (now : JsInstant) : List String :=
  (subscriptions.map Prod.snd).foldl
    (fun lines record =>
      if isActiveSubscription record now then lines ++ [buildSdfLine record]
      else lines) []

/-! ### The webhook event router -/

/-- Outcome of one webhook delivery: the ledger state afterwards and
whether the eligibility extract was regenerated (and handed to the
transport collaborator). -/
structure RouterResult where
  state : LedgerState
  regenerated : Bool
  deriving DecidableEq, Repr

/-- The routing core of the webhook endpoint (src/main.js lines 513-525),
entered after the order document has been fetched: create events and
FULFILLED updates run the upsert, CANCELED updates run the removal — both
then fall through to eligibility-file regeneration — and every other
topic/status combination returns early with no ledger mutation and no
regeneration. -/
def handleWebhook (topic : String) (update : Option String) (o : OrderDetails)
    (st : LedgerState) : RouterResult :=
  if topic = "order.create" ∨ (topic = "order.update" ∧ update = some "FULFILLED") then
    { state := updateSubscriptionRecord o st, regenerated := true }
  else if topic = "order.update" ∧ update = some "CANCELED" then
    { state := removeSubscriptionRecord o st, regenerated := true }
  else
    { state := st, regenerated := false }

/-- The `YYYYMMDD` shape invariant on a record's two stored date stamps,
relied on by `isActiveSubscription`'s fixed-offset substring parsing and
by the SDF encoder's unpadded 8-character date columns. -/
def recordDatesOk (r : SubRecord) : Prop :=
  isYYYYMMDD r.lastPaymentDate = true ∧ isYYYYMMDD r.nextDueDate = true

/-! ### Sample data for concrete evaluations -/

/-- A fulfilled order carrying the recognized Monthly price. -/
def sampleMonthlyOrder : OrderDetails :=
  { id := "order-1001"
    customerEmail := "jane@doe.com"
    salesLineItems := some [{ lineItemType := "PAYWALL_PRODUCT"
                              unitPricePaid := { value := "19.99" }
                              productName := "Patriot Monthly" }]
    lineItems := none
    fulfilledOn := some { year := 2025, month := 1, day := 10 }
    createdOn := { year := 2025, month := 1, day := 8 }
    billingAddress := some { firstName := some "Jane", lastName := some "Doe" } }

/-- An order whose subscription line item carries an amount outside the
recognized price table. -/
def sampleBadAmountOrder : OrderDetails :=
  { id := "order-1002"
    customerEmail := "bad@doe.com"
    salesLineItems := some [{ lineItemType := "PAYWALL_PRODUCT"
                              unitPricePaid := { value := "10.00" }
                              productName := "Mystery Tier" }]
    lineItems := none
    fulfilledOn := none
    createdOn := { year := 2025, month := 3, day := 2 }
    billingAddress := none }

/-- A minimal order document for cancellation routing. -/
def sampleCancelOrder : OrderDetails :=
  { id := "order-1003"
    customerEmail := "a@b.com"
    salesLineItems := none
    lineItems := none
    fulfilledOn := none
    createdOn := { year := 2025, month := 1, day := 1 }
    billingAddress := none }

/-- A stored record with due date 2025-02-10. -/
def sampleStoredRecord : SubRecord :=
  { customerEmail := "a@b.com"
    lastPaymentDate := "20250110"
    paymentAmount := "19.99"
    subscriptionPlan := "Monthly"
    nextDueDate := "20250210"
    orderId := "ORD1"
    firstName := "Jane"
    lastName := "Doe"
    productName := "Patriot Monthly" }

/-- A ledger holding `sampleStoredRecord`, with disk in sync. -/
def sampleLedger : LedgerState :=
  { store := [("a@b.com", sampleStoredRecord)]
    disk := [("a@b.com", sampleStoredRecord)] }

/-- An instant on 2025-01-13 UTC (day number 20101), before the sample
record's due date. -/
def sampleNow : JsInstant := { dayNumber := 20101, msOfDay := 0 }

/-! ### Helper lemmas -/

theorem digitChar_isDigit {n : Nat} (h : n < 10) :
    (Char.ofNat (48 + n)).isDigit = true := by
  interval_cases n <;> decide

theorem natChars_all_isDigit (n : Nat) : ∀ c ∈ natChars n, c.isDigit = true := by
  induction n using Nat.strong_induction_on with
  | _ n ih =>
    rw [natChars]
    split
    · next h =>
      intro c hc
      rw [List.mem_singleton] at hc
      exact hc ▸ digitChar_isDigit h
    · next h =>
      intro c hc
      rcases List.mem_append.mp hc with h1 | h2
      · exact ih (n / 10) (Nat.div_lt_self (by omega) (by omega)) c h1
      · rw [List.mem_singleton] at h2
        exact h2 ▸ digitChar_isDigit (Nat.mod_lt _ (by omega))

theorem natChars_length_le (k : Nat) :
    ∀ n : Nat, n < 10 ^ (k + 1) → (natChars n).length ≤ k + 1 := by
  induction k with
  | zero =>
    intro n hn
    rw [natChars, dif_pos (by simpa using hn)]
    simp
  | succ k ih =>
    intro n hn
    rw [natChars]
    split
    · simp
    · next h =>
      have hdiv : n / 10 < 10 ^ (k + 1) := by
        rw [Nat.div_lt_iff_lt_mul (by omega)]
        calc n < 10 ^ (k + 2) := hn
        _ = 10 ^ (k + 1) * 10 := by ring
      simpa using ih (n / 10) hdiv

theorem zeroPad_length {w n : Nat} (h : n < 10 ^ w) (hw : 1 ≤ w) :
    (zeroPad w n).length = w := by
  have hlen : (natChars n).length ≤ w := by
    obtain ⟨k, rfl⟩ : ∃ k, w = k + 1 := ⟨w - 1, by omega⟩
    exact natChars_length_le k n h
  simp [zeroPad, leftPad]
  omega

theorem zeroPad_all_isDigit (w n : Nat) : ∀ c ∈ zeroPad w n, c.isDigit = true := by
  intro c hc
  rcases List.mem_append.mp hc with h1 | h2
  · rw [List.eq_of_mem_replicate h1]; decide
  · exact natChars_all_isDigit n c h2

/-- For years up to 9999 and month/day numbers up to 99 the rendered
`yyyyMMdd` stamp is exactly eight decimal digits. -/
theorem formatYYYYMMDD_shape (dt : CivilDate)
    (hy : dt.year ≤ 9999) (hm : dt.month ≤ 99) (hd : dt.day ≤ 99) :
    isYYYYMMDD (formatYYYYMMDD dt) = true := by
  have l4 : (zeroPad 4 dt.year).length = 4 := zeroPad_length (by omega) (by omega)
  have l2m : (zeroPad 2 dt.month).length = 2 := zeroPad_length (by omega) (by omega)
  have l2d : (zeroPad 2 dt.day).length = 2 := zeroPad_length (by omega) (by omega)
  simp only [isYYYYMMDD, formatYYYYMMDD, Bool.and_eq_true, beq_iff_eq, List.all_eq_true]
  refine ⟨?_, ?_⟩
  · show (zeroPad 4 dt.year ++ zeroPad 2 dt.month ++ zeroPad 2 dt.day).length = 8
    simp [l4, l2m, l2d]
  · intro c hc
    rcases List.mem_append.mp hc with h1 | h2
    · rcases List.mem_append.mp h1 with h3 | h4
      · exact zeroPad_all_isDigit 4 dt.year c h3
      · exact zeroPad_all_isDigit 2 dt.month c h4
    · exact zeroPad_all_isDigit 2 dt.day c h2

theorem find?_map_set (k k' : String) (v : SubRecord) (h : k' ≠ k)
    (s : List (String × SubRecord)) :
    (s.map (fun p => if p.1 == k then (k, v) else p)).find? (fun p => p.1 == k')
      = s.find? (fun p => p.1 == k') := by
  induction s with
  | nil => rfl
  | cons p t ih =>
    rw [List.map_cons]
    by_cases hp : p.1 = k
    · have e1 : ((k, v).1 == k') = false := by simp [Ne.symm h]
      have e2 : (p.1 == k') = false := by simp [hp, Ne.symm h]
      simp only [if_pos (show (p.1 == k) = true by simp [hp]), List.find?_cons, e1, e2]
      exact ih
    · simp only [if_neg (show ¬(p.1 == k) = true by simp [hp]), List.find?_cons]
      cases e3 : (p.1 == k') with
      | true => rfl
      | false => exact ih

theorem find?_append_singleton_ne (k k' : String) (v : SubRecord) (h : k' ≠ k)
    (s : List (String × SubRecord)) :
    (s ++ [(k, v)]).find? (fun p => p.1 == k') = s.find? (fun p => p.1 == k') := by
  rw [List.find?_append]
  have hsingle : ([(k, v)].find? (fun p => p.1 == k')) = none := by
    rw [List.find?_cons_of_neg _ (by simp [Ne.symm h])]
    rfl
  rw [hsingle, Option.or_none]

theorem find?_filter_key_ne (k k' : String) (h : k' ≠ k)
    (s : List (String × SubRecord)) :
    (s.filter (fun p => !(p.1 == k))).find? (fun p => p.1 == k')
      = s.find? (fun p => p.1 == k') := by
  induction s with
  | nil => rfl
  | cons p t ih =>
    by_cases hp : p.1 = k
    · rw [List.filter_cons_of_neg (by simp [hp]),
        List.find?_cons_of_neg _ (by simp [hp, Ne.symm h]), ih]
    · rw [List.filter_cons_of_pos (by simp [hp])]
      by_cases hk' : p.1 = k'
      · rw [List.find?_cons_of_pos _ (by simp [hk']),
          List.find?_cons_of_pos _ (by simp [hk'])]
      · rw [List.find?_cons_of_neg _ (by simp [hk']),
          List.find?_cons_of_neg _ (by simp [hk']), ih]

/-- Writing under one key leaves lookups of every other key unchanged. -/
theorem storeGet_set_ne (s : List (String × SubRecord)) (k k' : String)
    (v : SubRecord) (h : k' ≠ k) :
    storeGet (storeSet s k v) k' = storeGet s k' := by
  unfold storeGet storeSet
  split
  · rw [find?_map_set k k' v h]
  · rw [find?_append_singleton_ne k k' v h]

/-- Idempotence of the JS object write: assigning the same value twice is
the same as assigning it once. -/
theorem storeSet_idem (s : List (String × SubRecord)) (k : String) (v : SubRecord) :
    storeSet (storeSet s k v) k v = storeSet s k v := by
  by_cases h : storeHasKey s k = true
  · have hset : storeSet s k v = s.map (fun p => if p.1 == k then (k, v) else p) := by
      rw [storeSet, if_pos h]
    have hmap : storeHasKey (s.map (fun p => if p.1 == k then (k, v) else p)) k = true := by
      rw [storeHasKey, List.any_map]
      rcases List.any_eq_true.mp h with ⟨p, hp, hpk⟩
      exact List.any_eq_true.mpr ⟨p, hp, by simp [Function.comp, beq_iff_eq.mp hpk]⟩
    rw [hset, storeSet, if_pos hmap, List.map_map]
    congr 1
    funext p
    by_cases hp : p.1 = k <;> simp [Function.comp, hp]
  · have hset : storeSet s k v = s ++ [(k, v)] := by
      rw [storeSet, if_neg h]
    have happ : storeHasKey (s ++ [(k, v)]) k = true := by
      rw [storeHasKey, List.any_append]
      simp [List.any_cons]
    have habsent : ∀ p ∈ s, ¬(p.1 == k) = true := by
      have hf : storeHasKey s k = false := Bool.eq_false_iff.mpr h
      exact List.any_eq_false.mp (by simpa [storeHasKey] using hf)
    rw [hset, storeSet, if_pos happ, List.map_append]
    have hs : s.map (fun p => if p.1 == k then (k, v) else p) = s := by
      conv_rhs => rw [← List.map_id s]
      apply List.map_congr_left
      intro p hp
      rw [if_neg (habsent p hp)]
      rfl
    rw [hs, List.map_cons]
    rw [if_pos (show ((k, v).1 == k) = true by simp)]
    rfl

theorem storeCount_map_set (s : List (String × SubRecord)) (k : String) (v : SubRecord) :
    storeCount (s.map (fun p => if p.1 == k then (k, v) else p)) k = storeCount s k := by
  induction s with
  | nil => rfl
  | cons p t ih =>
    rw [List.map_cons]
    unfold storeCount at ih ⊢
    by_cases hp : p.1 = k
    · rw [if_pos (show (p.1 == k) = true by simp [hp]),
        List.filter_cons_of_pos (by simp), List.filter_cons_of_pos (by simp [hp])]
      simpa using ih
    · rw [if_neg (show ¬(p.1 == k) = true by simp [hp]),
        List.filter_cons_of_neg (by simp [hp]), List.filter_cons_of_neg (by simp [hp])]
      exact ih

/-- A ledger whose key occurs at most once holds exactly one entry for it
after a write. -/
theorem storeCount_set (s : List (String × SubRecord)) (k : String) (v : SubRecord)
    (h : storeCount s k ≤ 1) : storeCount (storeSet s k v) k = 1 := by
  unfold storeSet
  split
  · next hk =>
    rw [storeCount_map_set]
    have h1 : 1 ≤ storeCount s k := by
      rcases List.any_eq_true.mp hk with ⟨p, hp, hpk⟩
      have hmem : p ∈ s.filter (fun p => p.1 == k) := List.mem_filter.mpr ⟨hp, hpk⟩
      have := List.length_pos.mpr (List.ne_nil_of_mem hmem)
      unfold storeCount
      omega
    omega
  · next hk =>
    have h0 : s.filter (fun p => p.1 == k) = [] := by
      rw [List.filter_eq_nil_iff]
      exact List.any_eq_false.mp (Bool.eq_false_iff.mpr (by simpa [storeHasKey] using hk))
    unfold storeCount
    rw [List.filter_append, h0, List.nil_append,
      List.filter_cons_of_pos (by simp)]
    rfl

/-- Every entry of the written store is the new one or came from before. -/
theorem mem_storeSet (s : List (String × SubRecord)) (k : String) (v : SubRecord)
    (p : String × SubRecord) (hp : p ∈ storeSet s k v) : p = (k, v) ∨ p ∈ s := by
  unfold storeSet at hp
  split at hp
  · rcases List.mem_map.mp hp with ⟨q, hq, rfl⟩
    by_cases hqk : q.1 = k
    · left
      rw [if_pos (show (q.1 == k) = true by simp [hqk])]
    · right
      rw [if_neg (show ¬(q.1 == k) = true by simp [hqk])]
      exact hq
  · rcases List.mem_append.mp hp with h1 | h2
    · right; exact h1
    · left; simpa using h2

theorem foldl_push_filter (p : SubRecord → Bool) (f : SubRecord → String) :
    ∀ (l : List SubRecord) (init : List String),
      l.foldl (fun acc r => if p r then acc ++ [f r] else acc) init
        = init ++ (l.filter p).map f := by
  intro l
  induction l with
  | nil => intro init; simp
  | cons r t ih =>
    intro init
    rw [List.foldl_cons]
    by_cases hr : p r = true
    · rw [if_pos hr, ih, List.filter_cons_of_pos hr, List.map_cons, List.append_assoc,
        List.singleton_append]
    · rw [if_neg hr, ih, List.filter_cons_of_neg hr]

theorem padEnd_length (s : String) (w : Nat) (c : Char) (h : s.length ≤ w) :
    (padEnd s w c).length = w := by
  have hs : s.length = s.data.length := rfl
  simp only [padEnd, String.length_mk, List.length_append, List.length_replicate]
  omega

theorem padStart_length (s : String) (w : Nat) (c : Char) (h : s.length ≤ w) :
    (padStart s w c).length = w := by
  have hs : s.length = s.data.length := rfl
  simp only [padStart, String.length_mk, List.length_append, List.length_replicate]
  omega

/-- A record whose fields fit their columns renders to a line of exactly
148 characters (the sum of the fixed column widths). -/
theorem buildSdfLine_length (r : SubRecord) (h : sdfWellFormed r) :
    (buildSdfLine r).length = 148 := by
  obtain ⟨h1, h2, h3, h4, h5, h6, h7, h8⟩ := h
  rw [buildSdfLine]
  rw [String.length_append, String.length_append, String.length_append,
    String.length_append, String.length_append, String.length_append,
    String.length_append]
  rw [padEnd_length _ _ _ h1, padEnd_length _ _ _ h2, padStart_length _ _ _ h5,
    padEnd_length _ _ _ h6, padEnd_length _ _ _ h7, padEnd_length _ _ _ h8, h3, h4]

/-- After a removal the customer's key can no longer be looked up,
whether or not it was present. -/
theorem storeGet_remove_self (o : OrderDetails) (st : LedgerState) :
    storeGet (removeSubscriptionRecord o st).store o.customerEmail = none := by
  unfold removeSubscriptionRecord
  split
  · next hk =>
    show storeGet (st.store.filter (fun p => !(p.1 == o.customerEmail))) o.customerEmail = none
    unfold storeGet
    have hfind : (st.store.filter (fun p => !(p.1 == o.customerEmail))).find?
        (fun p => p.1 == o.customerEmail) = none := by
      rw [List.find?_eq_none]
      intro x hx
      have hxf := (List.mem_filter.mp hx).2
      simp only [Bool.not_eq_eq_eq_not, Bool.not_true] at hxf
      simp [hxf]
    rw [hfind]
    rfl
  · next hk =>
    unfold storeGet
    have hfind : st.store.find? (fun p => p.1 == o.customerEmail) = none := by
      rw [List.find?_eq_none]
      exact List.any_eq_false.mp (Bool.eq_false_iff.mpr (by simpa [storeHasKey] using hk))
    rw [hfind]
    rfl

/-- Bounds on the next-due date: starting from a payment date whose year
is at most 9998 and whose month is in range, every plan keeps the date
renderable as an 8-digit stamp. -/
theorem computeNextDueDate_bounds (dt : CivilDate) (plan : String)
    (hy : dt.year ≤ 9998) (hm : dt.month ≤ 12) (hd : dt.day ≤ 99) :
    (computeNextDueDate dt plan).year ≤ 9999 ∧
    (computeNextDueDate dt plan).month ≤ 99 ∧
    (computeNextDueDate dt plan).day ≤ 99 := by
  unfold computeNextDueDate
  split
  · unfold addMonths
    refine ⟨by simp; omega, by simp; omega, ?_⟩
    simpa using le_trans (Nat.min_le_left _ _) hd
  · split
    · unfold addYears
      refine ⟨by simp; omega, by simpa using hm.trans (by omega), ?_⟩
      simpa using le_trans (Nat.min_le_left _ _) hd
    · exact ⟨by omega, by omega, hd⟩

end Mikecal

namespace Mikecal

/-- The spec's statement of the effective-date rule (§4.1/§8), written
independently of the source: first of the month for day ≤ 15, first of
the next month otherwise, December rolling to January of the next year. -/
theorem toCareingtonEffectiveDate_spec (dt : CivilDate) :
    (dt.day ≤ 15 → toCareingtonEffectiveDate dt = ⟨dt.year, dt.month, 1⟩) ∧
    (15 < dt.day → dt.month = 12 → toCareingtonEffectiveDate dt = ⟨dt.year + 1, 1, 1⟩) ∧
    (15 < dt.day → dt.month ≠ 12 → toCareingtonEffectiveDate dt = ⟨dt.year, dt.month + 1, 1⟩) ∧
    (toCareingtonEffectiveDate dt).day = 1 := by
  unfold toCareingtonEffectiveDate
  refine ⟨fun h => by simp [h], fun h hm => ?_, fun h hm => ?_, ?_⟩
  · rw [if_neg (by omega), if_pos hm]
  · rw [if_neg (by omega), if_neg hm]
  · split <;> [rfl; (split <;> rfl)]

/-- Plan-interval arithmetic of `computeNextDueDate` (§4.1): Monthly adds
one calendar month (with December rolling to January and the day clamped
to the target month), Annual adds one calendar year (clamping Feb 29), and
any other plan string returns the date unchanged. -/
theorem computeNextDueDate_spec (dt : CivilDate) (h1 : 1 ≤ dt.month) (h2 : dt.month ≤ 12) :
    (computeNextDueDate dt "Monthly" =
      if dt.month = 12 then ⟨dt.year + 1, 1, min dt.day 31⟩
      else ⟨dt.year, dt.month + 1, min dt.day (daysInMonth dt.year (dt.month + 1))⟩) ∧
    (computeNextDueDate dt "Annual" =
      ⟨dt.year + 1, dt.month, min dt.day (daysInMonth (dt.year + 1) dt.month)⟩) ∧
    (∀ plan : String, plan ≠ "Monthly" → plan ≠ "Annual" → computeNextDueDate dt plan = dt) := by
  refine ⟨?_, ?_, ?_⟩
  · unfold computeNextDueDate addMonths
    rw [if_pos rfl]
    by_cases hm : dt.month = 12
    · have e1 : (dt.year * 12 + (dt.month - 1) + 1) / 12 = dt.year + 1 := by omega
      have e2 : (dt.year * 12 + (dt.month - 1) + 1) % 12 = 0 := by omega
      simp only [e1, e2, if_pos hm]
      simp [daysInMonth]
    · have e1 : (dt.year * 12 + (dt.month - 1) + 1) / 12 = dt.year := by omega
      have e2 : (dt.year * 12 + (dt.month - 1) + 1) % 12 = dt.month := by omega
      simp only [e1, e2, if_neg hm]
  · unfold computeNextDueDate addYears
    rw [if_neg (by decide), if_pos rfl]
  · intro plan hM hA
    unfold computeNextDueDate
    rw [if_neg hM, if_neg hA]

/-- The activity evaluator compares at day granularity: with the
time-of-day in range, `isActiveSubscription` returns `true` exactly when
`now`'s civil day number is strictly below the day number of the record's
next-due date, independently of the time of day; it is `false` whenever
`now` is on or after the due date, including on the boundary day itself. -/
theorem isActiveSubscription_iff (r : SubRecord) (now : JsInstant)
    (h : now.msOfDay < msPerDay) :
    isActiveSubscription r now = true ↔ now.dayNumber < nextDueDayNumber r := by
  have h' : now.msOfDay < 86400000 := h
  simp only [isActiveSubscription, nextDueDayNumber, JsInstant.toMillis, msPerDay,
    decide_eq_true_eq]
  omega

/-- An order whose subscription line item carries an unrecognized paid
unit price produces no record: `updateSubscriptionRecord` returns with
the in-memory store and the persisted state completely unchanged. -/
theorem updateSubscriptionRecord_unrecognized
    (o : OrderDetails) (st : LedgerState) (items : List LineItem) (item : LineItem)
    (hitems : orderItems o = some items)
    (hfind : findSubscriptionItem items = some item)
    (h1 : item.unitPricePaid.value ≠ "19.99")
    (h2 : item.unitPricePaid.value ≠ "159.00") :
    updateSubscriptionRecord o st = st := by
  have hne : ¬items.length = 0 := by
    intro h0
    rw [List.length_eq_zero] at h0
    subst h0
    simp [findSubscriptionItem] at hfind
  simp only [updateSubscriptionRecord, hitems, hfind, recognizedPlan,
    if_neg hne, if_neg h1, if_neg h2]

/-- `removeSubscriptionRecord` deletes the keyed record and persists when
the key is present, is a pure no-op when it is absent, the key is never
findable afterwards, and it keeps disk and store in sync whenever they
were in sync before the call. -/
theorem removeSubscriptionRecord_spec (o : OrderDetails) (st : LedgerState) :
    (storeHasKey st.store o.customerEmail = true →
      (removeSubscriptionRecord o st).store
          = st.store.filter (fun p => !(p.1 == o.customerEmail)) ∧
      (removeSubscriptionRecord o st).disk = (removeSubscriptionRecord o st).store) ∧
    (storeHasKey st.store o.customerEmail = false → removeSubscriptionRecord o st = st) ∧
    storeGet (removeSubscriptionRecord o st).store o.customerEmail = none ∧
    (st.disk = st.store →
      (removeSubscriptionRecord o st).disk = (removeSubscriptionRecord o st).store) := by
  refine ⟨fun hk => ?_, fun hk => ?_, storeGet_remove_self o st, fun hsync => ?_⟩
  · unfold removeSubscriptionRecord
    rw [if_pos hk]
    exact ⟨rfl, rfl⟩
  · unfold removeSubscriptionRecord
    rw [if_neg (by simp [hk])]
  · unfold removeSubscriptionRecord
    split
    · rfl
    · exact hsync

/-- The router upserts through the normalizer exactly on `order.create`
and on FULFILLED `order.update` events (regenerating the extract),
removes the record keyed by the order's customer email on CANCELED
`order.update` events (regenerating the extract, after which the email no
longer resolves), and for every other topic/status combination leaves the
ledger untouched and regenerates nothing. -/
theorem handleWebhook_routes (topic : String) (update : Option String)
    (o : OrderDetails) (st : LedgerState) :
    ((topic = "order.create" ∨ (topic = "order.update" ∧ update = some "FULFILLED")) →
      handleWebhook topic update o st =
        { state := updateSubscriptionRecord o st, regenerated := true }) ∧
    (topic = "order.update" → update = some "CANCELED" →
      handleWebhook topic update o st =
        { state := removeSubscriptionRecord o st, regenerated := true } ∧
      storeGet (handleWebhook topic update o st).state.store o.customerEmail = none) ∧
    (¬(topic = "order.create" ∨ (topic = "order.update" ∧ update = some "FULFILLED")) →
      ¬(topic = "order.update" ∧ update = some "CANCELED") →
      handleWebhook topic update o st = { state := st, regenerated := false }) := by
  refine ⟨fun h1 => ?_, fun ht hu => ?_, fun h1 h2 => ?_⟩
  · unfold handleWebhook
    rw [if_pos h1]
  · subst ht hu
    have hno : ¬("order.update" = "order.create" ∨
        ("order.update" = "order.update" ∧ (some "CANCELED" : Option String) = some "FULFILLED")) := by
      decide
    have heq : handleWebhook "order.update" (some "CANCELED") o st =
        { state := removeSubscriptionRecord o st, regenerated := true } := by
      unfold handleWebhook
      rw [if_neg hno, if_pos (by decide)]
    refine ⟨heq, ?_⟩
    rw [heq]
    exact storeGet_remove_self o st
  · unfold handleWebhook
    rw [if_neg h1, if_neg h2]

/-- Replaying a create/fulfill event that normalizes to a record is
idempotent: the second application leaves the whole ledger state (every
field of the final record included) unchanged, and the final store holds
exactly one entry under the customer's email. -/
theorem updateSubscriptionRecord_idempotent
    (o : OrderDetails) (st : LedgerState) (items : List LineItem) (item : LineItem)
    (plan : String)
    (hitems : orderItems o = some items)
    (hfind : findSubscriptionItem items = some item)
    (hplan : recognizedPlan item.unitPricePaid.value = some plan)
    (hcount : storeCount st.store o.customerEmail ≤ 1) :
    updateSubscriptionRecord o (updateSubscriptionRecord o st)
        = updateSubscriptionRecord o st ∧
    storeCount (updateSubscriptionRecord o (updateSubscriptionRecord o st)).store
        o.customerEmail = 1 := by
  have hne : ¬items.length = 0 := by
    intro h0
    rw [List.length_eq_zero] at h0
    subst h0
    simp [findSubscriptionItem] at hfind
  have hstep : ∀ s : LedgerState, updateSubscriptionRecord o s =
      { store := storeSet s.store o.customerEmail (normalizedRecord o item plan)
        disk := storeSet s.store o.customerEmail (normalizedRecord o item plan) } := by
    intro s
    simp only [updateSubscriptionRecord, hitems, hfind, hplan, if_neg hne, normalizedRecord]
  constructor
  · rw [hstep st, hstep ⟨_, _⟩]
    simp only [LedgerState.mk.injEq]
    exact ⟨storeSet_idem _ _ _, storeSet_idem _ _ _⟩
  · rw [hstep st, hstep ⟨_, _⟩]
    simp only []
    rw [storeSet_idem]
    exact storeCount_set _ _ _ hcount

/-- Frame property of the two ledger mutations: processing an order for
one customer never changes what is stored under any other email. -/
theorem mutation_frame (o : OrderDetails) (st : LedgerState) (e2 : String)
    (h : e2 ≠ o.customerEmail) :
    storeGet (updateSubscriptionRecord o st).store e2 = storeGet st.store e2 ∧
    storeGet (removeSubscriptionRecord o st).store e2 = storeGet st.store e2 := by
  constructor
  · rcases hoi : orderItems o with _ | items
    · simp [updateSubscriptionRecord, hoi]
    · by_cases hlen : items.length = 0
      · simp [updateSubscriptionRecord, hoi, hlen]
      · rcases hfind : findSubscriptionItem items with _ | item
        · simp [updateSubscriptionRecord, hoi, hlen, hfind]
        · rcases hplan : recognizedPlan item.unitPricePaid.value with _ | plan
          · simp [updateSubscriptionRecord, hoi, hlen, hfind, hplan]
          · have hstep : updateSubscriptionRecord o st =
                { store := storeSet st.store o.customerEmail (normalizedRecord o item plan)
                  disk := storeSet st.store o.customerEmail (normalizedRecord o item plan) } := by
              simp only [updateSubscriptionRecord, hoi, hfind, hplan, if_neg hlen,
                normalizedRecord]
            rw [hstep]
            exact storeGet_set_ne st.store o.customerEmail e2 _ h
  · unfold removeSubscriptionRecord
    split
    · show storeGet (st.store.filter (fun p => !(p.1 == o.customerEmail))) e2
          = storeGet st.store e2
      unfold storeGet
      rw [find?_filter_key_ne o.customerEmail e2 h]
    · rfl

/-- Shape invariant of the stored date stamps: when the order's payment
date is a renderable calendar date, the record the normalizer creates
carries `lastPaymentDate` and `nextDueDate` as 8-character digit strings,
and both ledger mutations preserve that shape for every stored record
(the activity evaluator's substring offsets and the SDF encoder's
unpadded date columns depend on it). -/
theorem dateShape_invariant (o : OrderDetails) (st : LedgerState)
    (hy : (paymentDateOf o).year ≤ 9998) (hm : (paymentDateOf o).month ≤ 12)
    (hd : (paymentDateOf o).day ≤ 99)
    (hst : ∀ p ∈ st.store, recordDatesOk p.2) :
    (∀ p ∈ (updateSubscriptionRecord o st).store, recordDatesOk p.2) ∧
    (∀ p ∈ (removeSubscriptionRecord o st).store, recordDatesOk p.2) := by
  constructor
  · rcases hoi : orderItems o with _ | items
    · simpa [updateSubscriptionRecord, hoi] using hst
    · by_cases hlen : items.length = 0
      · simpa [updateSubscriptionRecord, hoi, hlen] using hst
      · rcases hfind : findSubscriptionItem items with _ | item
        · simpa [updateSubscriptionRecord, hoi, hlen, hfind] using hst
        · rcases hplan : recognizedPlan item.unitPricePaid.value with _ | plan
          · simpa [updateSubscriptionRecord, hoi, hlen, hfind, hplan] using hst
          · have hstep : updateSubscriptionRecord o st =
                { store := storeSet st.store o.customerEmail (normalizedRecord o item plan)
                  disk := storeSet st.store o.customerEmail (normalizedRecord o item plan) } := by
              simp only [updateSubscriptionRecord, hoi, hfind, hplan, if_neg hlen,
                normalizedRecord]
            rw [hstep]
            intro p hp
            rcases mem_storeSet _ _ _ p hp with rfl | hmem
            · obtain ⟨hb1, hb2, hb3⟩ :=
                computeNextDueDate_bounds (paymentDateOf o) plan hy hm hd
              exact ⟨formatYYYYMMDD_shape _ (by omega) (by omega) hd,
                formatYYYYMMDD_shape _ hb1 hb2 hb3⟩
            · exact hst p hmem
  · unfold removeSubscriptionRecord
    split
    · intro p hp
      exact hst p (List.mem_filter.mp hp).1
    · exact hst

/-- The fixed-width extract emits exactly one line per active record —
the lines are, in store order, the rendered lines of the records accepted
by the activity evaluator — and, whenever every field fits its column,
each emitted line is exactly 148 characters long: the sum of the column
widths 50+10+8+8+8+20+20+24 (not the 158 the spec quotes). -/
theorem generateSubscriptionSDF_spec (subs : List (String × SubRecord)) (now : JsInstant)
    (h : ∀ p ∈ subs, sdfWellFormed p.2) :
    generateSubscriptionSDF subs now =
      ((subs.map Prod.snd).filter (fun r => isActiveSubscription r now)).map buildSdfLine ∧
    ∀ line ∈ generateSubscriptionSDF subs now, line.length = 148 := by
  have heq : generateSubscriptionSDF subs now =
      ((subs.map Prod.snd).filter (fun r => isActiveSubscription r now)).map buildSdfLine := by
    unfold generateSubscriptionSDF
    rw [foldl_push_filter (fun r => isActiveSubscription r now) buildSdfLine, List.nil_append]
  refine ⟨heq, ?_⟩
  intro line hline
  rw [heq] at hline
  rcases List.mem_map.mp hline with ⟨r, hr, rfl⟩
  have hr2 := (List.mem_filter.mp hr).1
  rcases List.mem_map.mp hr2 with ⟨p, hp, rfl⟩
  exact buildSdfLine_length _ (h p hp)

set_option maxRecDepth 8192 in
/-- Counterexample to the quoted total width: at a concrete active record
the single emitted fixed-width line is 148 characters long, not 158. -/
theorem generateSubscriptionSDF_width_counterexample :
    (generateSubscriptionSDF [("a@b.com", sampleStoredRecord)] sampleNow).map
        String.length = [148] ∧
    ¬((generateSubscriptionSDF [("a@b.com", sampleStoredRecord)] sampleNow).map
        String.length = [158]) := by
  constructor
  · decide
  · decide

/-! ### Concrete witnesses -/

/-- December 20 rolls the effective date to January 1 of the next year. -/
theorem toCareingtonEffectiveDate_spec_witness :
    toCareingtonEffectiveDate ⟨2025, 12, 20⟩ = ⟨2026, 1, 1⟩ :=
  (toCareingtonEffectiveDate_spec ⟨2025, 12, 20⟩).2.1 (by decide) rfl

/-- The sample instant (day 20101) is before the stored due date
2025-02-10 (day 20129), so the record evaluates as active. -/
theorem isActiveSubscription_iff_witness :
    isActiveSubscription sampleStoredRecord sampleNow = true :=
  (isActiveSubscription_iff sampleStoredRecord sampleNow (by decide)).mpr (by decide)

/-- A Monthly payment on December 20 is due again on January 20 of the
next year. -/
theorem computeNextDueDate_spec_witness :
    computeNextDueDate ⟨2025, 12, 20⟩ "Monthly" = ⟨2026, 1, 20⟩ := by
  have h := (computeNextDueDate_spec ⟨2025, 12, 20⟩ (by decide) (by decide)).1
  simpa using h

/-- The `"10.00"` order leaves an empty ledger strictly empty. -/
theorem updateSubscriptionRecord_unrecognized_witness :
    updateSubscriptionRecord sampleBadAmountOrder { store := [], disk := [] }
      = { store := [], disk := [] } :=
  updateSubscriptionRecord_unrecognized sampleBadAmountOrder
    { store := [], disk := [] } _ _ rfl rfl (by decide) (by decide)

set_option maxRecDepth 8192 in
/-- On the sample ledger the extract is the rendered active records and
its single line is 148 characters long. -/
theorem generateSubscriptionSDF_spec_witness :
    generateSubscriptionSDF [("a@b.com", sampleStoredRecord)] sampleNow =
      (([("a@b.com", sampleStoredRecord)].map Prod.snd).filter
        (fun r => isActiveSubscription r sampleNow)).map buildSdfLine ∧
    (generateSubscriptionSDF [("a@b.com", sampleStoredRecord)] sampleNow).map
        String.length = [148] := by
  have h := generateSubscriptionSDF_spec [("a@b.com", sampleStoredRecord)] sampleNow
    (by
      intro p hp
      rw [List.mem_singleton] at hp
      subst hp
      exact ⟨by decide, by decide, by decide, by decide, by decide, by decide,
        by decide, by decide⟩)
  exact ⟨h.1, by decide⟩

/-- A CANCELED update routes to the removal with regeneration. -/
theorem handleWebhook_routes_witness :
    handleWebhook "order.update" (some "CANCELED") sampleCancelOrder sampleLedger =
      { state := removeSubscriptionRecord sampleCancelOrder sampleLedger
        regenerated := true } :=
  ((handleWebhook_routes "order.update" (some "CANCELED") sampleCancelOrder
    sampleLedger).2.1 rfl rfl).1

/-- Replaying the sample Monthly order is idempotent and leaves exactly
one record under the customer's email. -/
theorem updateSubscriptionRecord_idempotent_witness :
    updateSubscriptionRecord sampleMonthlyOrder
        (updateSubscriptionRecord sampleMonthlyOrder { store := [], disk := [] })
      = updateSubscriptionRecord sampleMonthlyOrder { store := [], disk := [] } ∧
    storeCount (updateSubscriptionRecord sampleMonthlyOrder
        (updateSubscriptionRecord sampleMonthlyOrder
          { store := [], disk := [] })).store "jane@doe.com" = 1 :=
  updateSubscriptionRecord_idempotent sampleMonthlyOrder { store := [], disk := [] }
    _ _ _ rfl rfl rfl (by decide)

/-- Removing the present sample record empties the store and keeps the
disk in sync. -/
theorem removeSubscriptionRecord_spec_witness :
    (removeSubscriptionRecord sampleCancelOrder sampleLedger).store = [] ∧
    (removeSubscriptionRecord sampleCancelOrder sampleLedger).disk
      = (removeSubscriptionRecord sampleCancelOrder sampleLedger).store := by
  have h := (removeSubscriptionRecord_spec sampleCancelOrder sampleLedger).1 (by decide)
  exact ⟨h.1.trans (by decide), h.2⟩

/-- The record created from the sample Monthly order carries 8-digit
date stamps. -/
theorem dateShape_invariant_witness :
    (updateSubscriptionRecord sampleMonthlyOrder { store := [], disk := [] }).store.all
      (fun p => isYYYYMMDD p.2.lastPaymentDate && isYYYYMMDD p.2.nextDueDate) = true := by
  have h := (dateShape_invariant sampleMonthlyOrder { store := [], disk := [] }
    (by decide) (by decide) (by decide)
    (fun p hp => absurd hp (List.not_mem_nil p))).1
  rw [List.all_eq_true]
  intro p hp
  rcases h p hp with ⟨h1, h2⟩
  rw [Bool.and_eq_true]
  exact ⟨h1, h2⟩

/-- Processing the sample Monthly order does not disturb the record
stored under the unrelated email. -/
theorem mutation_frame_witness :
    storeGet (updateSubscriptionRecord sampleMonthlyOrder sampleLedger).store "a@b.com"
      = storeGet sampleLedger.store "a@b.com" ∧
    storeGet (removeSubscriptionRecord sampleMonthlyOrder sampleLedger).store "a@b.com"
      = storeGet sampleLedger.store "a@b.com" :=
  mutation_frame sampleMonthlyOrder sampleLedger "a@b.com" (by decide)

end Mikecal
